import Mathlib

/-!
Shallow embedding of the error-classification subsystem of the
contentful-management Python client (`contentful_management/errors.py`).

The module inspects an HTTP response (status code, headers, JSON body) and
builds a typed error object carrying a multi-line diagnostic message.
Python-level failures that the construction can raise (KeyError,
AttributeError, TypeError, ValueError) are modelled with `Except PyError`;
JSON values are modelled by the inductive `JsonValue`.
-/

namespace ContentfulErrors

/-- The Python exceptions that error construction can raise and that are not
caught by the JSON-decode handler in `_best_available_message`. -/
inductive PyError where
  | keyError (key : String)
  | attributeError
  | typeError
  | valueError
deriving DecidableEq

mutual
/-- A JSON value as produced by `response.json()` (Python: None, bool, int,
str, list, dict). Floats are out of scope for the claims considered. -/
inductive JsonValue where
  | null
  | bool (b : Bool)
  | num (n : Int)
  | str (s : String)
  | arr (elems : JsonArr)
  | obj (fields : JsonObj)

/-- The elements of a JSON array. -/
inductive JsonArr where
  | nil
  | cons (hd : JsonValue) (tl : JsonArr)

/-- The key-value fields of a JSON object, in insertion order. -/
inductive JsonObj where
  | nil
  | cons (key : String) (val : JsonValue) (tl : JsonObj)
end

/-- The elements of a JSON array, as a Lean list. -/
def JsonArr.toList : JsonArr → List JsonValue
  | .nil => []
  | .cons x xs => x :: xs.toList

/-- The keys of a JSON object, in order. -/
def JsonObj.keys : JsonObj → List String
  | .nil => []
  | .cons k _ tl => k :: tl.keys

/-- First value stored under a key (Python dicts from JSON have unique keys). -/
def JsonObj.lookup : JsonObj → String → Option JsonValue
  | .nil, _ => none
  | .cons k v tl, key => if k = key then some v else tl.lookup key

/-- Python `key in dict`. -/
def JsonObj.hasKey (o : JsonObj) (key : String) : Bool :=
  (o.lookup key).isSome

/-- Whether the value is a JSON object (a Python dict after parsing). -/
def JsonValue.isObj : JsonValue → Bool
  | .obj _ => true
  | _ => false

/-- Lookup under Python `.get(key, None)` semantics: a stored JSON null is
Python `None`, indistinguishable from an absent key. -/
def lookupGet (fields : JsonObj) (key : String) : Option JsonValue :=
  match fields.lookup key with
  | some .null => none
  | some x => some x
  | none => none

/-- Python `value.get(key, None)`: only dicts have `.get`, everything else
raises AttributeError. -/
def pyGet (v : JsonValue) (key : String) : Except PyError (Option JsonValue) :=
  match v with
  | .obj fields => .ok (lookupGet fields key)
  | _ => .error .attributeError

/-- Python `value[key]` with a string key: KeyError on a dict without the key,
TypeError on strings, lists, numbers, booleans and None. -/
def getItem (v : JsonValue) (key : String) : Except PyError JsonValue :=
  match v with
  | .obj fields =>
    match fields.lookup key with
    | some x => .ok x
    | none => .error (.keyError key)
  | _ => .error .typeError

/-- Whether a list of characters occurs inside another (Python substring
membership `sub in s`). -/
def listHasInfix (sub : List Char) : List Char → Bool
  | [] => sub.isEmpty
  | c :: t => sub.isPrefixOf (c :: t) || listHasInfix sub t

/-- Python `key in value`: key lookup on dicts, element equality on lists,
substring test on strings, TypeError elsewhere. -/
def pyContains (v : JsonValue) (key : String) : Except PyError Bool :=
  match v with
  | .obj fields => .ok (fields.hasKey key)
  | .arr elems => .ok (elems.toList.any fun x =>
      match x with
      | .str s => s == key
      | _ => false)
  | .str s => .ok (listHasInfix key.data s.data)
  | _ => .error .typeError

/-- Python iteration `for x in value`: list elements, characters of a string
(as one-character strings), keys of a dict; TypeError elsewhere. -/
def pyIter : JsonValue → Except PyError (List JsonValue)
  | .arr elems => .ok elems.toList
  | .str s => .ok (s.data.map fun c => .str (String.mk [c]))
  | .obj fields => .ok (fields.keys.map JsonValue.str)
  | _ => .error .typeError

/-- One escaped character of a Python string repr with quote character `q`. -/
def pyReprChar (q : Char) (c : Char) : String :=
  if c = '\\' then "\\\\"
  else if c = q then String.mk ['\\', q]
  else if c = '\n' then "\\n"
  else if c = '\r' then "\\r"
  else if c = '\t' then "\\t"
  else String.mk [c]

/-- Python `repr` of a string over the printable range: single quotes, or
double quotes when the text holds a single quote but no double quote. -/
def pyReprStr (s : String) : String :=
  let sq : Char := '\''
  let dq : Char := '"'
  let q := if s.data.contains sq && !s.data.contains dq then dq else sq
  String.mk [q] ++ String.join (s.data.map (pyReprChar q)) ++ String.mk [q]

mutual
/-- Python `repr` of a JSON value (what `str` uses inside containers). -/
def pyRepr : JsonValue → String
  | .null => "None"
  | .bool true => "True"
  | .bool false => "False"
  | .num n => toString n
  | .str s => pyReprStr s
  | .arr elems => "[" ++ pyReprArr elems ++ "]"
  | .obj fields => "\x7b" ++ pyReprObj fields ++ "\x7d"

/-- Comma-separated reprs of array elements. -/
def pyReprArr : JsonArr → String
  | .nil => ""
  | .cons x .nil => pyRepr x
  | .cons x tl => pyRepr x ++ ", " ++ pyReprArr tl

/-- Comma-separated `key: value` reprs of object fields. -/
def pyReprObj : JsonObj → String
  | .nil => ""
  | .cons k v .nil => pyReprStr k ++ ": " ++ pyRepr v
  | .cons k v tl => pyReprStr k ++ ": " ++ pyRepr v ++ ", " ++ pyReprObj tl
end

/-- Python `str` / `"{0}".format(value)`: a string passes unchanged, any
other value falls back to its repr. -/
def pyStr : JsonValue → String
  | .str s => s
  | v => pyRepr v

/-- Python `sep.join(list_of_strings)`. -/
def joinStrings (sep : String) : List String → String
  | [] => ""
  | [x] => x
  | x :: xs => x ++ sep ++ joinStrings sep xs

/-- A joined item must be a Python str, else `join` raises TypeError. -/
def asStr : JsonValue → Except PyError String
  | .str s => .ok s
  | _ => .error .typeError

/-- All items of the iterable must be Python strs for `join`. -/
def asStrList : List JsonValue → Except PyError (List String)
  | [] => .ok []
  | x :: xs =>
    match asStr x with
    | .error e => .error e
    | .ok s =>
      match asStrList xs with
      | .error e => .error e
      | .ok t => .ok (s :: t)

/-- Python `sep.join(value)` over an arbitrary iterable value. -/
def pyJoin (sep : String) (v : JsonValue) : Except PyError String :=
  match pyIter v with
  | .error e => .error e
  | .ok items =>
    match asStrList items with
    | .error e => .error e
    | .ok strs => .ok (joinStrings sep strs)

/-- Whitespace characters stripped by Python `int(str)` (space, tab, newline,
vertical tab, form feed, carriage return). -/
def isPySpace (c : Char) : Bool :=
  c.toNat = 32 || c.toNat = 9 || c.toNat = 10 || c.toNat = 11 ||
    c.toNat = 12 || c.toNat = 13

/-- ASCII decimal digit. -/
def isAsciiDigit (c : Char) : Bool :=
  48 ≤ c.toNat && c.toNat ≤ 57

/-- The numeric value of a list of decimal digits. -/
def digitsToNat : List Char → Nat → Nat
  | [], acc => acc
  | c :: t, acc => digitsToNat t (acc * 10 + (c.toNat - 48))

/-- Python `int(s)` on a decimal string: strip whitespace, one optional sign,
then digits; `none` models the ValueError raised on anything else. -/
def pyInt? (s : String) : Option Int :=
  let t := (s.data.dropWhile isPySpace).reverse.dropWhile isPySpace |>.reverse
  let signed : Bool × List Char :=
    match t with
    | '-' :: rest => (true, rest)
    | '+' :: rest => (false, rest)
    | rest => (false, rest)
  if signed.2 ≠ [] ∧ signed.2.all isAsciiDigit then
    some (if signed.1 then -(digitsToNat signed.2 0 : Int) else (digitsToNat signed.2 0 : Int))
  else
    none

/-- ASCII lowercase, as Python `str.lower` acts on header names. -/
def charLower (c : Char) : Char :=
  if 65 ≤ c.toNat ∧ c.toNat ≤ 90 then Char.ofNat (c.toNat + 32) else c

/-- Header-name lowering for case-insensitive lookup. -/
def strLower (s : String) : String :=
  String.mk (s.data.map charLower)

/-- An HTTP response as the classifier sees it: status code, headers, body
text, and the result of attempting to parse the body as JSON (`none` models
the JSONDecodeError raised on a malformed or absent body). -/
structure Response where
  status_code : Nat
  headers : List (String × String)
  text : String
  jsonBody : Option JsonValue

/-- Case-insensitive header lookup, as on `requests` response headers. -/
def headerLookup (headers : List (String × String)) (key : String) : Option String :=
  (headers.find? fun p => strLower p.1 == strLower key).map Prod.snd

/-- The error variants: the ten bespoke status codes plus the base
`HTTPError` used for every other status. -/
inductive ErrorKind where
  | generic
  | badRequest
  | unauthorized
  | accessDenied
  | notFound
  | versionMismatch
  | unprocessableEntity
  | rateLimitExceeded
  | server
  | badGateway
  | serviceUnavailable
deriving DecidableEq

/-- `_default_error_message` of each error class. -/
def defaultErrorMessage (k : ErrorKind) (resp : Response) : String :=
  match k with
  | .generic => "The following error was received: " ++ resp.text
  | .badRequest => "The request was malformed or missing a required parameter."
  | .unauthorized => "The authorization token was invalid."
  | .accessDenied => "The specified token does not have access to the requested resource."
  | .notFound => "The requested resource or endpoint could not be found."
  | .versionMismatch => "Version mismatch error. The version you specified was incorrect. This may be due to someone else editing the content."
  | .unprocessableEntity => "The resource you sent in the body is invalid."
  | .rateLimitExceeded => "Rate limit exceeded. Too many requests."
  | .server => "Internal server error."
  | .badGateway => "The requested space is hibernated."
  | .serviceUnavailable => "The request was malformed or missing a required parameter."

/-- `BadRequestError._handle_detail`: a string entry passes unchanged, any
other entry contributes its `details` sub-field via `.get`. -/
def handleDetailEntry (d : JsonValue) : Except PyError (Option JsonValue) :=
  match d with
  | .str s => .ok (some (.str s))
  | _ => pyGet d "details"

/-- The list comprehension over `details['errors']` in
`BadRequestError._handle_details`. -/
def handleDetailEntries : List JsonValue → Except PyError (List (Option JsonValue))
  | [] => .ok []
  | x :: xs =>
    match handleDetailEntry x with
    | .error e => .error e
    | .ok o =>
      match handleDetailEntries xs with
      | .error e => .error e
      | .ok t => .ok (o :: t)

/-- `BadRequestError._handle_details`. -/
def badRequestHandleDetails (details : JsonValue) : Except PyError String :=
  match details with
  | .str s => .ok s
  | _ =>
    match pyContains details "errors" with
    | .error e => .error e
    | .ok hasErrors =>
      if hasErrors then
        match getItem details "errors" with
        | .error e => .error e
        | .ok errs =>
          match pyIter errs with
          | .error e => .error e
          | .ok items =>
            match handleDetailEntries items with
            | .error e => .error e
            | .ok handled =>
              match asStrList (handled.filterMap id) with
              | .error e => .error e
              | .ok strs => .ok (joinStrings "\n\t" strs)
      else
        .ok (pyStr details)

/-- `AccessDeniedError._handle_details`. -/
def accessDeniedHandleDetails (details : JsonValue) : Except PyError String :=
  match getItem details "reasons" with
  | .error e => .error e
  | .ok reasons =>
    match pyJoin "\n\t\t" reasons with
    | .error e => .error e
    | .ok joined => .ok ("\n\tReasons:\n\t\t" ++ joined)

/-- `NotFoundError._handle_details`. -/
def notFoundHandleDetails (details : JsonValue) : Except PyError String :=
  match details with
  | .str s => .ok s
  | _ =>
    match getItem details "type" with
    | .error e => .error e
    | .ok t =>
      match pyGet details "id" with
      | .error e => .error e
      | .ok (some v) =>
        .ok ("The requested " ++ pyStr t ++ " could not be found." ++ " ID: " ++ pyStr v ++ ".")
      | .ok none =>
        .ok ("The requested " ++ pyStr t ++ " could not be found.")

/-- `UnprocessableEntityError._handle_error`. -/
def unprocessableHandleError (error : JsonValue) : Except PyError String :=
  match pyContains error "name" with
  | .error e => .error e
  | .ok hasName =>
    match pyContains error "path" with
    | .error e => .error e
    | .ok hasPath =>
      let withBase : Except PyError String :=
        if hasName && hasPath then
          match getItem error "name" with
          | .error e => .error e
          | .ok n =>
            match getItem error "path" with
            | .error e => .error e
            | .ok p => .ok ("\t* Name: " ++ pyStr n ++ " - Path: '" ++ pyStr p ++ "'")
        else
          .ok "The resource you sent in the body is invalid."
      match withBase with
      | .error e => .error e
      | .ok base =>
        match pyContains error "value" with
        | .error e => .error e
        | .ok hasValue =>
          if hasValue then
            match getItem error "value" with
            | .error e => .error e
            | .ok v => .ok (base ++ " - Value: '" ++ pyStr v ++ "'")
          else
            .ok base

/-- The loop over `details['errors']` in
`UnprocessableEntityError._handle_details`. -/
def unprocessableHandleErrors : List JsonValue → Except PyError (List String)
  | [] => .ok []
  | x :: xs =>
    match unprocessableHandleError x with
    | .error e => .error e
    | .ok s =>
      match unprocessableHandleErrors xs with
      | .error e => .error e
      | .ok t => .ok (s :: t)

/-- `UnprocessableEntityError._handle_details`. -/
def unprocessableHandleDetails (details : JsonValue) : Except PyError String :=
  match getItem details "errors" with
  | .error e => .error e
  | .ok errs =>
    match pyIter errs with
    | .error e => .error e
    | .ok items =>
      match unprocessableHandleErrors items with
      | .error e => .error e
      | .ok msgs => .ok ("\n" ++ joinStrings "\n" msgs)

/-- `_handle_details` dispatched on the error class; the base class
stringifies the details value. -/
def handleDetails (k : ErrorKind) (details : JsonValue) : Except PyError String :=
  match k with
  | .badRequest => badRequestHandleDetails details
  | .accessDenied => accessDeniedHandleDetails details
  | .notFound => notFoundHandleDetails details
  | .unprocessableEntity => unprocessableHandleDetails details
  | _ => .ok (pyStr details)

/-- The first line of every composed message. -/
def statusLine (resp : Response) : String :=
  "HTTP status code: " ++ toString resp.status_code

/-- The `x-contentful-ratelimit-reset` header key constant. -/
def RATE_LIMIT_RESET_HEADER_KEY : String := "x-contentful-ratelimit-reset"

/-- The `Message:` line: the body's `message` value when usable, else the
default message of the variant. -/
def messageLineOf (k : ErrorKind) (resp : Response) (message : Option JsonValue) : String :=
  match message with
  | some m => "Message: " ++ pyStr m
  | none => "Message: " ++ defaultErrorMessage k resp

/-- The `Details:` line, present only when the body has a usable `details`
value; `_handle_details` may raise. -/
def detailLinesOf (k : ErrorKind) (details : Option JsonValue) : Except PyError (List String) :=
  match details with
  | some d =>
    match handleDetails k d with
    | .error e => .error e
    | .ok s => .ok ["Details: " ++ s]
  | none => .ok []

/-- The `Request ID:` line, present only when the body has a usable
`requestId` value. -/
def requestIdLinesOf (requestId : Option JsonValue) : List String :=
  match requestId with
  | some r => ["Request ID: " ++ pyStr r]
  | none => []

/-- The try-block of `_best_available_message`: status line, then on parse
success the message/details/request-id lines, on parse failure the default
message line; errors other than the JSON decode are not caught. -/
def coreMessageLines (k : ErrorKind) (resp : Response) : Except PyError (List String) :=
  match resp.jsonBody with
  | none => .ok [statusLine resp, "Message: " ++ defaultErrorMessage k resp]
  | some j =>
    match pyGet j "message" with
    | .error e => .error e
    | .ok message =>
      match pyGet j "details" with
      | .error e => .error e
      | .ok details =>
        match pyGet j "requestId" with
        | .error e => .error e
        | .ok requestId =>
          match detailLinesOf k details with
          | .error e => .error e
          | .ok dls =>
            .ok ([statusLine resp, messageLineOf k resp message] ++ dls ++
              requestIdLinesOf requestId)

/-- `_additional_error_info`: only the rate-limit class adds a line, parsing
the reset header with `int` (ValueError on a non-integer header value). -/
def additionalErrorInfo (k : ErrorKind) (resp : Response) : Except PyError (List String) :=
  match k with
  | .rateLimitExceeded =>
    match headerLookup resp.headers RATE_LIMIT_RESET_HEADER_KEY with
    | none => .ok []
    | some v =>
      match pyInt? v with
      | some n => .ok ["Time until reset (seconds): " ++ toString n]
      | none => .error .valueError
  | _ => .ok []

/-- `HTTPError._best_available_message`: core lines then the additional
info, joined with newlines. -/
def bestAvailableMessage (k : ErrorKind) (resp : Response) : Except PyError String :=
  match coreMessageLines k resp with
  | .error e => .error e
  | .ok core =>
    match additionalErrorInfo k resp with
    | .error e => .error e
    | .ok extra => .ok (joinStrings "\n" (core ++ extra))

/-- The status-code registry of `get_error`: the ten bespoke codes, any
other status falls back to the base class. -/
def kindOf (sc : Nat) : ErrorKind :=
  if sc = 400 then .badRequest
  else if sc = 401 then .unauthorized
  else if sc = 403 then .accessDenied
  else if sc = 404 then .notFound
  else if sc = 409 then .versionMismatch
  else if sc = 422 then .unprocessableEntity
  else if sc = 429 then .rateLimitExceeded
  else if sc = 500 then .server
  else if sc = 502 then .badGateway
  else if sc = 503 then .serviceUnavailable
  else .generic

/-- The constructed error object: status code, selected variant, composed
message, and the rate-limit reset time when its header is present. -/
structure ApiError where
  status_code : Nat
  kind : ErrorKind
  message : String
  reset_time : Option Int
deriving DecidableEq

/-- `RateLimitExceededError.reset_time`, exposed as `none` when the header
is absent (the method would raise KeyError then; it is only reachable when
`_has_reset_time` holds). -/
def resetTimeOf (k : ErrorKind) (resp : Response) : Except PyError (Option Int) :=
  match k with
  | .rateLimitExceeded =>
    match headerLookup resp.headers RATE_LIMIT_RESET_HEADER_KEY with
    | none => .ok none
    | some v =>
      match pyInt? v with
      | some n => .ok (some n)
      | none => .error .valueError
  | _ => .ok none

/-- `get_error`: select the class by status code and construct it; any
exception escaping `__init__` escapes `get_error`. -/
def get_error (resp : Response) : Except PyError ApiError :=
  let k := kindOf resp.status_code
  match bestAvailableMessage k resp with
  | .error e => .error e
  | .ok msg =>
    match resetTimeOf k resp with
    | .error e => .error e
    | .ok rt => .ok ⟨resp.status_code, k, msg, rt⟩

/-- The 422 per-entry formatting of `_handle_error` on a record entry, as a
pure function: the Name/Path form when both keys are present, else the 422
default sentence, with the Value suffix appended when present. -/
def ueFormatEntry (fs : JsonObj) : String :=
  let base :=
    match fs.lookup "name", fs.lookup "path" with
    | some n, some p => "\t* Name: " ++ pyStr n ++ " - Path: '" ++ pyStr p ++ "'"
    | _, _ => "The resource you sent in the body is invalid."
  match fs.lookup "value" with
  | some v => base ++ " - Value: '" ++ pyStr v ++ "'"
  | none => base

/-- Per-entry text of the 422 formatter (record entries only). -/
def ueEntryText : JsonValue → String
  | .obj fs => ueFormatEntry fs
  | _ => ""

/-- A 400 `details.errors` entry the joining step accepts: a string, or a
record whose `details` sub-field is absent, null or a string. -/
def brEntryOk : JsonValue → Bool
  | .str _ => true
  | .obj fs =>
    (match fs.lookup "details" with
     | none => true
     | some .null => true
     | some (.str _) => true
     | _ => false)
  | _ => false

/-- What a 400 `details.errors` entry contributes to the joined text: the
entry itself when it is a string, else its string `details` sub-field. -/
def brEntryResult : JsonValue → Option String
  | .str s => some s
  | .obj fs =>
    (match fs.lookup "details" with
     | some (.str s) => some s
     | _ => none)
  | _ => none

/-- The `details` sub-field of an entry as the C7 spec sentence reads it
(string sub-field or nothing). -/
def specC7EntryDetail : JsonValue → Option String
  | .obj fs =>
    (match lookupGet fs "details" with
     | some (.str s) => some s
     | _ => none)
  | _ => none

/-- The BadRequest detail formatting exactly as the spec sentence behind C7
words it: a string as-is; for a mapping with an `errors` list, the `details`
sub-field of each entry (entries yielding none are skipped) joined with a
newline-tab; else the stringified details. Kept separate from the
source-derived `badRequestHandleDetails` to compare the two. -/
def specC7BadRequestDetails (details : JsonValue) : String :=
  match details with
  | .str s => s
  | .obj fs =>
    (match fs.lookup "errors" with
     | some (.arr l) => joinStrings "\n\t" (l.toList.filterMap specC7EntryDetail)
     | _ => pyStr (.obj fs))
  | _ => pyStr details

/-- A sample response and its constructed error, for witnesses. -/
def resp404 : Response := ⟨404, [], "x", none⟩

/-- The error object `get_error` builds from `resp404`. -/
def e404 : ApiError :=
  ⟨404, ErrorKind.notFound,
    "HTTP status code: 404\nMessage: The requested resource or endpoint could not be found.",
    none⟩

/-- A sample 429 response carrying the reset header in mixed case. -/
def resp429 : Response := ⟨429, [("X-Contentful-RateLimit-Reset", "5")], "r", none⟩

/-- The error object `get_error` builds from `resp429`. -/
def e429 : ApiError :=
  ⟨429, ErrorKind.rateLimitExceeded,
    "HTTP status code: 429\nMessage: Rate limit exceeded. Too many requests.\nTime until reset (seconds): 5",
    some 5⟩

/-! ## Helper lemmas -/

lemma joinStrings_data_cons (sep x : String) (xs : List String) :
    ∃ t, (joinStrings sep (x :: xs)).data = x.data ++ t := by
  cases xs with
  | nil => exact ⟨[], by simp [joinStrings]⟩
  | cons y ys =>
    refine ⟨sep.data ++ (joinStrings sep (y :: ys)).data, ?_⟩
    simp [joinStrings, String.data_append, List.append_assoc]

lemma data_infix_of_mem_join {x : String} {l : List String} (sep : String) (hx : x ∈ l) :
    x.data <:+: (joinStrings sep l).data := by
  induction l with
  | nil => cases hx
  | cons y ys ih =>
    rcases List.mem_cons.mp hx with rfl | hx'
    · obtain ⟨t, ht⟩ := joinStrings_data_cons sep x ys
      rw [ht]
      exact ⟨[], t, by simp⟩
    · cases ys with
      | nil => cases hx'
      | cons z zs =>
        have h1 := ih hx'
        have h2 : (joinStrings sep (y :: z :: zs)).data =
            (y.data ++ sep.data) ++ (joinStrings sep (z :: zs)).data := by
          simp [joinStrings, String.data_append, List.append_assoc]
        rw [h2]
        exact h1.trans (List.suffix_append _ _).isInfix

lemma joinStrings_append_last (sep x : String) (l : List String) (h : l ≠ []) :
    ∃ a, joinStrings sep (l ++ [x]) = a ++ x := by
  induction l with
  | nil => cases h rfl
  | cons y ys ih =>
    cases ys with
    | nil => exact ⟨y ++ sep, by simp [joinStrings]⟩
    | cons z zs =>
      obtain ⟨a, ha⟩ := ih (by simp)
      refine ⟨y ++ sep ++ a, ?_⟩
      have hstep : joinStrings sep ((y :: z :: zs) ++ [x]) =
          y ++ sep ++ joinStrings sep ((z :: zs) ++ [x]) := rfl
      rw [hstep, ha]
      simp [String.append_assoc]

lemma string_ne_empty_of_data_cons {s : String} {c : Char} {t : List Char}
    (h : s.data = c :: t) : s ≠ "" := by
  intro he
  subst he
  simp at h

/-- Success of `get_error` decomposed into its three stages. -/
lemma get_error_ok {resp : Response} {e : ApiError} (h : get_error resp = .ok e) :
    ∃ core extra rt,
      coreMessageLines (kindOf resp.status_code) resp = .ok core ∧
      additionalErrorInfo (kindOf resp.status_code) resp = .ok extra ∧
      resetTimeOf (kindOf resp.status_code) resp = .ok rt ∧
      e = ⟨resp.status_code, kindOf resp.status_code,
        joinStrings "\n" (core ++ extra), rt⟩ := by
  rcases hc : coreMessageLines (kindOf resp.status_code) resp with err | core
  · have hval : get_error resp = .error err := by
      simp only [get_error, bestAvailableMessage, hc]
    rw [hval] at h
    simp at h
  rcases ha : additionalErrorInfo (kindOf resp.status_code) resp with err | extra
  · have hval : get_error resp = .error err := by
      simp only [get_error, bestAvailableMessage, hc, ha]
    rw [hval] at h
    simp at h
  rcases hr : resetTimeOf (kindOf resp.status_code) resp with err | rt
  · have hval : get_error resp = .error err := by
      simp only [get_error, bestAvailableMessage, hc, ha, hr]
    rw [hval] at h
    simp at h
  have hval : get_error resp = .ok ⟨resp.status_code, kindOf resp.status_code,
      joinStrings "\n" (core ++ extra), rt⟩ := by
    simp only [get_error, bestAvailableMessage, hc, ha, hr]
  rw [hval] at h
  injection h with h
  exact ⟨core, extra, rt, rfl, rfl, rfl, h.symm⟩

/-- Success of the try-block decomposed: the first line is always the status
line, and the second line is the default-message line whenever the body did
not parse or the parsed body has no usable `message` key. -/
lemma coreMessageLines_ok {k : ErrorKind} {resp : Response} {core : List String}
    (h : coreMessageLines k resp = .ok core) :
    ∃ mline rest, core = statusLine resp :: mline :: rest ∧
      ((resp.jsonBody = none ∨
        ∃ j, resp.jsonBody = some j ∧ pyGet j "message" = .ok none) →
        mline = "Message: " ++ defaultErrorMessage k resp) := by
  rcases hb : resp.jsonBody with _ | j
  · have hval : coreMessageLines k resp =
        .ok [statusLine resp, "Message: " ++ defaultErrorMessage k resp] := by
      simp only [coreMessageLines, hb]
    rw [hval] at h
    injection h with h
    exact ⟨"Message: " ++ defaultErrorMessage k resp, [], h.symm, fun _ => rfl⟩
  rcases hm : pyGet j "message" with em | m
  · have hval : coreMessageLines k resp = .error em := by
      simp only [coreMessageLines, hb, hm]
    rw [hval] at h
    simp at h
  rcases hd : pyGet j "details" with ed | dets
  · have hval : coreMessageLines k resp = .error ed := by
      simp only [coreMessageLines, hb, hm, hd]
    rw [hval] at h
    simp at h
  rcases hq : pyGet j "requestId" with er | rid
  · have hval : coreMessageLines k resp = .error er := by
      simp only [coreMessageLines, hb, hm, hd, hq]
    rw [hval] at h
    simp at h
  rcases hdl : detailLinesOf k dets with edl | dls
  · have hval : coreMessageLines k resp = .error edl := by
      simp only [coreMessageLines, hb, hm, hd, hq, hdl]
    rw [hval] at h
    simp at h
  have hval : coreMessageLines k resp =
      .ok (statusLine resp :: messageLineOf k resp m ::
        (dls ++ requestIdLinesOf rid)) := by
    simp only [coreMessageLines, hb, hm, hd, hq, hdl, List.cons_append, List.nil_append]
  rw [hval] at h
  injection h with h
  refine ⟨messageLineOf k resp m, dls ++ requestIdLinesOf rid, h.symm, fun hcase => ?_⟩
  rcases hcase with h0 | ⟨j', hj', hm'⟩
  · exact Option.noConfusion h0
  · injection hj' with hjj
    subst hjj
    rw [hm] at hm'
    injection hm' with hmm
    subst hmm
    rfl

lemma kindOf_429 {sc : Nat} (h : kindOf sc = ErrorKind.rateLimitExceeded) : sc = 429 := by
  by_contra hn
  unfold kindOf at h
  split_ifs at h

lemma additionalErrorInfo_of_ne {k : ErrorKind} {resp : Response}
    (h : k ≠ ErrorKind.rateLimitExceeded) : additionalErrorInfo k resp = .ok [] := by
  cases k <;> simp_all [additionalErrorInfo]

lemma resetTimeOf_of_ne {k : ErrorKind} {resp : Response}
    (h : k ≠ ErrorKind.rateLimitExceeded) : resetTimeOf k resp = .ok none := by
  cases k <;> simp_all [resetTimeOf]

/-! ## Claims -/

/-- C3: `get_error` selects the error variant by exact status-code lookup:
exactly the ten codes 400, 401, 403, 404, 409, 422, 429, 500, 502, 503 map
to their bespoke variants with the default messages of the table, and every
other status code maps to the generic base variant. -/
theorem registryExactStatusCodes :
    (kindOf 400 = ErrorKind.badRequest ∧ kindOf 401 = ErrorKind.unauthorized ∧
     kindOf 403 = ErrorKind.accessDenied ∧ kindOf 404 = ErrorKind.notFound ∧
     kindOf 409 = ErrorKind.versionMismatch ∧ kindOf 422 = ErrorKind.unprocessableEntity ∧
     kindOf 429 = ErrorKind.rateLimitExceeded ∧ kindOf 500 = ErrorKind.server ∧
     kindOf 502 = ErrorKind.badGateway ∧ kindOf 503 = ErrorKind.serviceUnavailable) ∧
    (∀ resp : Response,
      defaultErrorMessage ErrorKind.badRequest resp =
        "The request was malformed or missing a required parameter." ∧
      defaultErrorMessage ErrorKind.unauthorized resp =
        "The authorization token was invalid." ∧
      defaultErrorMessage ErrorKind.accessDenied resp =
        "The specified token does not have access to the requested resource." ∧
      defaultErrorMessage ErrorKind.notFound resp =
        "The requested resource or endpoint could not be found." ∧
      defaultErrorMessage ErrorKind.versionMismatch resp =
        "Version mismatch error. The version you specified was incorrect. This may be due to someone else editing the content." ∧
      defaultErrorMessage ErrorKind.unprocessableEntity resp =
        "The resource you sent in the body is invalid." ∧
      defaultErrorMessage ErrorKind.rateLimitExceeded resp =
        "Rate limit exceeded. Too many requests." ∧
      defaultErrorMessage ErrorKind.server resp = "Internal server error." ∧
      defaultErrorMessage ErrorKind.badGateway resp = "The requested space is hibernated." ∧
      defaultErrorMessage ErrorKind.serviceUnavailable resp =
        "The request was malformed or missing a required parameter." ∧
      defaultErrorMessage ErrorKind.generic resp =
        "The following error was received: " ++ resp.text) ∧
    (∀ sc : Nat, sc ≠ 400 → sc ≠ 401 → sc ≠ 403 → sc ≠ 404 → sc ≠ 409 → sc ≠ 422 →
      sc ≠ 429 → sc ≠ 500 → sc ≠ 502 → sc ≠ 503 → kindOf sc = ErrorKind.generic) := by
  refine ⟨⟨rfl, rfl, rfl, rfl, rfl, rfl, rfl, rfl, rfl, rfl⟩,
    fun resp => ⟨rfl, rfl, rfl, rfl, rfl, rfl, rfl, rfl, rfl, rfl, rfl⟩,
    fun sc h1 h2 h3 h4 h5 h6 h7 h8 h9 h10 => ?_⟩
  simp [kindOf, h1, h2, h3, h4, h5, h6, h7, h8, h9, h10]

/-- Witness for C3: an unregistered status code (418) is generic, and a
registered one carries the table's default message. -/
theorem registryExactStatusCodesWitness :
    kindOf 418 = ErrorKind.generic ∧
    defaultErrorMessage ErrorKind.badGateway ⟨502, [], "b", none⟩ =
      "The requested space is hibernated." :=
  ⟨registryExactStatusCodes.2.2 418 (by decide) (by decide) (by decide) (by decide)
      (by decide) (by decide) (by decide) (by decide) (by decide) (by decide),
    (registryExactStatusCodes.2.1 ⟨502, [], "b", none⟩).2.2.2.2.2.2.2.2.1⟩

/-- C9: classification is a deterministic pure function of the response:
two successful runs of `get_error` on the same response agree on every
field of the resulting error object. -/
theorem classifyDeterministic (resp : Response) (e1 e2 : ApiError)
    (h1 : get_error resp = Except.ok e1) (h2 : get_error resp = Except.ok e2) :
    e1.status_code = e2.status_code ∧ e1.message = e2.message ∧
    e1.kind = e2.kind ∧ e1.reset_time = e2.reset_time := by
  rw [h1] at h2
  injection h2 with h
  subst h
  exact ⟨rfl, rfl, rfl, rfl⟩

/-- Witness for C9 at a concrete 404 response. -/
theorem classifyDeterministicWitness :
    e404.status_code = e404.status_code ∧ e404.message = e404.message ∧
    e404.kind = e404.kind ∧ e404.reset_time = e404.reset_time :=
  classifyDeterministic resp404 e404 e404 rfl rfl

/-- C10: a body that parses to a non-object JSON value (array, number,
string, boolean or null) makes the construction raise AttributeError at the
`message` lookup, so `get_error` returns no error object. -/
theorem nonObjectBodyRaises (resp : Response) (j : JsonValue)
    (hb : resp.jsonBody = some j) (hno : j.isObj = false) :
    get_error resp = Except.error PyError.attributeError := by
  unfold get_error bestAvailableMessage coreMessageLines
  rw [hb]
  cases j <;> try rfl
  simp [JsonValue.isObj] at hno

/-- Witness for C10: a body parsing to the number 3. -/
theorem nonObjectBodyRaisesWitness :
    get_error ⟨500, [], "t", some (JsonValue.num 3)⟩ =
      Except.error PyError.attributeError :=
  nonObjectBodyRaises ⟨500, [], "t", some (JsonValue.num 3)⟩ (JsonValue.num 3) rfl rfl

lemma str_ext {s t : String} (h : s.data = t.data) : s = t := by
  cases s
  cases t
  exact congrArg String.mk h

lemma two_line_merge (a b : String) :
    joinStrings "\n" [a, "Message: " ++ b] = a ++ "\nMessage: " ++ b := by
  apply str_ext
  show ((a ++ "\n") ++ ("Message: " ++ b)).data = ((a ++ "\nMessage: ") ++ b).data
  simp only [String.data_append, List.append_assoc]
  rfl

lemma three_line_merge (a b c : String) :
    joinStrings "\n" [a, "Message: " ++ b, "Time until reset (seconds): " ++ c] =
      a ++ "\nMessage: " ++ b ++ "\nTime until reset (seconds): " ++ c := by
  apply str_ext
  show ((a ++ "\n") ++ (("Message: " ++ b) ++ "\n" ++
      ("Time until reset (seconds): " ++ c))).data =
    ((((a ++ "\nMessage: ") ++ b) ++ "\nTime until reset (seconds): ") ++ c).data
  simp only [String.data_append, List.append_assoc]
  rfl

/-- Counterexample to C4 as stated: a 429 response with an unparseable body
and the reset header present gets a third message line appended after the
two status/default lines, so the message is not exactly those two lines. -/
theorem unparseableBodyTwoLinesCounterexample :
    get_error ⟨429, [("x-contentful-ratelimit-reset", "5")], "boom", none⟩ =
      Except.ok ⟨429, ErrorKind.rateLimitExceeded,
        "HTTP status code: 429\nMessage: Rate limit exceeded. Too many requests.\nTime until reset (seconds): 5",
        some 5⟩ ∧
    ("HTTP status code: 429\nMessage: Rate limit exceeded. Too many requests.\nTime until reset (seconds): 5" : String) ≠
      "HTTP status code: 429\nMessage: Rate limit exceeded. Too many requests." :=
  ⟨rfl, by decide⟩

/-- C4 (amended): for any response with an unparseable body the composed
message is exactly the two lines status/default — except that the
RateLimitExceeded variant additionally appends its reset line when the
(case-insensitive) reset header is present. -/
theorem unparseableBodyMessage (resp : Response) (e : ApiError)
    (hb : resp.jsonBody = none) (h : get_error resp = Except.ok e) :
    ((resp.status_code ≠ 429 ∨
        headerLookup resp.headers RATE_LIMIT_RESET_HEADER_KEY = none) →
      e.message = "HTTP status code: " ++ toString resp.status_code ++
        "\nMessage: " ++ defaultErrorMessage (kindOf resp.status_code) resp) ∧
    (∀ v n, resp.status_code = 429 →
      headerLookup resp.headers RATE_LIMIT_RESET_HEADER_KEY = some v →
      pyInt? v = some n →
      e.message = "HTTP status code: " ++ toString resp.status_code ++
        "\nMessage: " ++ defaultErrorMessage (kindOf resp.status_code) resp ++
        "\nTime until reset (seconds): " ++ toString n) := by
  obtain ⟨core, extra, rt, hc, ha, hr, he⟩ := get_error_ok h
  have hcval : coreMessageLines (kindOf resp.status_code) resp =
      .ok [statusLine resp, "Message: " ++ defaultErrorMessage (kindOf resp.status_code) resp] := by
    simp only [coreMessageLines, hb]
  rw [hcval] at hc
  injection hc with hc
  subst hc
  constructor
  · intro hcase
    have hextra : extra = [] := by
      rcases hcase with hsc | hhd
      · have hk : kindOf resp.status_code ≠ ErrorKind.rateLimitExceeded :=
          fun hk => hsc (kindOf_429 hk)
        have := @additionalErrorInfo_of_ne (kindOf resp.status_code) resp hk
        rw [this] at ha
        injection ha with ha
        exact ha.symm
      · rcases hk : kindOf resp.status_code with _ | _ | _ | _ | _ | _ | _ | _ | _ | _ | _ <;>
          rw [hk] at ha <;> simp only [additionalErrorInfo, hhd] at ha <;>
          (injection ha with ha; exact ha.symm)
    subst hextra
    rw [he]
    show joinStrings "\n"
        ([statusLine resp, "Message: " ++ defaultErrorMessage (kindOf resp.status_code) resp] ++ []) = _
    rw [List.append_nil, two_line_merge]
    rfl
  · intro v n hsc hhd hint
    have hk : kindOf resp.status_code = ErrorKind.rateLimitExceeded := by rw [hsc]; rfl
    have hextra : extra = ["Time until reset (seconds): " ++ toString n] := by
      rw [hk] at ha
      simp only [additionalErrorInfo, hhd, hint] at ha
      injection ha with ha
      exact ha.symm
    subst hextra
    rw [he]
    show joinStrings "\n"
        [statusLine resp, "Message: " ++ defaultErrorMessage (kindOf resp.status_code) resp,
          "Time until reset (seconds): " ++ toString n] = _
    rw [three_line_merge]
    rfl

/-- Witness for C4 (amended), at a 500 response with unparseable body. -/
theorem unparseableBodyMessageWitness :
    (⟨500, ErrorKind.server, "HTTP status code: 500\nMessage: Internal server error.",
        none⟩ : ApiError).message =
      "HTTP status code: " ++ toString (500 : Nat) ++ "\nMessage: " ++
        defaultErrorMessage (kindOf 500) ⟨500, [], "oops", none⟩ :=
  (unparseableBodyMessage ⟨500, [], "oops", none⟩
    ⟨500, ErrorKind.server, "HTTP status code: 500\nMessage: Internal server error.", none⟩
    rfl rfl).1 (Or.inl (by decide))

/-- C5: for a 429 response whose case-insensitive reset header is "5", the
error carries reset_time 5 and its message ends with the reset line; with
the header absent, reset_time is not populated, no info line is produced,
and the message is exactly the joined core lines. -/
theorem rateLimitResetHeader (resp : Response) (e : ApiError)
    (hsc : resp.status_code = 429) (h : get_error resp = Except.ok e) :
    (headerLookup resp.headers RATE_LIMIT_RESET_HEADER_KEY = some "5" →
      e.reset_time = some 5 ∧
      ∃ a, e.message = a ++ "Time until reset (seconds): 5") ∧
    (headerLookup resp.headers RATE_LIMIT_RESET_HEADER_KEY = none →
      e.reset_time = none ∧
      additionalErrorInfo (kindOf resp.status_code) resp = Except.ok [] ∧
      ∃ core, coreMessageLines (kindOf resp.status_code) resp = Except.ok core ∧
        e.message = joinStrings "\n" core) := by
  obtain ⟨core, extra, rt, hc, ha, hr, he⟩ := get_error_ok h
  have hk : kindOf resp.status_code = ErrorKind.rateLimitExceeded := by rw [hsc]; rfl
  constructor
  · intro hh
    have ha' : additionalErrorInfo (kindOf resp.status_code) resp =
        .ok ["Time until reset (seconds): 5"] := by
      rw [hk]
      simp only [additionalErrorInfo, hh]
      rfl
    have hr' : resetTimeOf (kindOf resp.status_code) resp = .ok (some 5) := by
      rw [hk]
      simp only [resetTimeOf, hh]
      rfl
    rw [ha'] at ha
    injection ha with ha
    rw [hr'] at hr
    injection hr with hr
    subst ha
    subst hr
    obtain ⟨mline, rest, hcore, _⟩ := coreMessageLines_ok hc
    have hne : core ≠ [] := by rw [hcore]; simp
    obtain ⟨a, hjoin⟩ :=
      joinStrings_append_last "\n" "Time until reset (seconds): 5" core hne
    exact ⟨by rw [he], a, by rw [he]; exact hjoin⟩
  · intro hh
    have ha' : additionalErrorInfo (kindOf resp.status_code) resp = .ok [] := by
      rw [hk]
      simp only [additionalErrorInfo, hh]
    have hr' : resetTimeOf (kindOf resp.status_code) resp = .ok none := by
      rw [hk]
      simp only [resetTimeOf, hh]
    rw [ha'] at ha
    injection ha with ha
    rw [hr'] at hr
    injection hr with hr
    subst ha
    subst hr
    refine ⟨by rw [he], ha', core, hc, ?_⟩
    rw [he]
    simp

/-- Witness for C5 at `resp429` (header spelled in mixed case). -/
theorem rateLimitResetHeaderWitness :
    e429.reset_time = some 5 ∧ ∃ a, e429.message = a ++ "Time until reset (seconds): 5" :=
  (rateLimitResetHeader resp429 e429 rfl rfl).1 rfl

/-- C2: every successfully constructed error has a non-empty message that
contains the line with the HTTP status code; when the body did not parse or
carries no usable `message` key, the message also contains the variant's
default sentence. -/
theorem messageNeverEmpty (resp : Response) (e : ApiError)
    (h : get_error resp = Except.ok e) :
    e.message ≠ "" ∧
    ("HTTP status code: " ++ toString resp.status_code).data <:+: e.message.data ∧
    ((resp.jsonBody = none ∨
      ∃ j, resp.jsonBody = some j ∧ pyGet j "message" = Except.ok none) →
      (defaultErrorMessage (kindOf resp.status_code) resp).data <:+: e.message.data) := by
  obtain ⟨core, extra, rt, hc, ha, hr, he⟩ := get_error_ok h
  obtain ⟨mline, rest, hcore, hdef⟩ := coreMessageLines_ok hc
  have hmsg : e.message = joinStrings "\n" (core ++ extra) := by rw [he]
  subst hcore
  have hshape : (statusLine resp :: mline :: rest) ++ extra =
      statusLine resp :: (mline :: (rest ++ extra)) := by simp
  rw [hshape] at hmsg
  have hinf1 : (statusLine resp).data <:+: e.message.data := by
    rw [hmsg]
    exact data_infix_of_mem_join "\n" (by simp)
  have hinf2 : mline.data <:+: e.message.data := by
    rw [hmsg]
    exact data_infix_of_mem_join "\n" (by simp)
  refine ⟨?_, hinf1, ?_⟩
  · intro hemp
    obtain ⟨t, ht⟩ := joinStrings_data_cons "\n" (statusLine resp) (mline :: (rest ++ extra))
    have hdata : e.message.data = (statusLine resp).data ++ t := by rw [hmsg, ht]
    rw [hemp] at hdata
    have hsl : (statusLine resp).data =
        ("HTTP status code: " : String).data ++ (toString resp.status_code).data := by
      simp [statusLine, String.data_append]
    rw [hsl] at hdata
    have hnil : ("" : String).data = [] := rfl
    rw [hnil] at hdata
    have h1 := (List.append_eq_nil.mp hdata.symm).1
    have h2 := (List.append_eq_nil.mp h1).1
    have hne : ("HTTP status code: " : String).data ≠ [] := by decide
    exact hne h2
  · intro hcase
    have hm := hdef hcase
    have hsub : (defaultErrorMessage (kindOf resp.status_code) resp).data <:+: mline.data := by
      rw [hm]
      simp only [String.data_append]
      exact (List.suffix_append _ _).isInfix
    exact hsub.trans hinf2

/-- Witness for C2 at `resp404` (parse failure). -/
theorem messageNeverEmptyWitness :
    e404.message ≠ "" ∧
    ("HTTP status code: " ++ toString (404 : Nat)).data <:+: e404.message.data ∧
    ((resp404.jsonBody = none ∨
      ∃ j, resp404.jsonBody = some j ∧ pyGet j "message" = Except.ok none) →
      (defaultErrorMessage (kindOf 404) resp404).data <:+: e404.message.data) :=
  messageNeverEmpty resp404 e404 rfl

/-- C6: the 404 detail formatter uses a string details value unchanged;
for a details record it builds "The requested {type} could not be found."
and appends " ID: {id}." exactly when a non-null id is stored; the
Entry/abc example produces the expected Details line end to end. -/
theorem notFoundDetailsFormat :
    (∀ s, notFoundHandleDetails (JsonValue.str s) = .ok s) ∧
    (∀ fs t, JsonObj.lookup fs "type" = some t →
      (lookupGet fs "id" = none →
        notFoundHandleDetails (JsonValue.obj fs) =
          .ok ("The requested " ++ pyStr t ++ " could not be found.")) ∧
      (∀ v, lookupGet fs "id" = some v →
        notFoundHandleDetails (JsonValue.obj fs) =
          .ok ("The requested " ++ pyStr t ++ " could not be found." ++
            " ID: " ++ pyStr v ++ "."))) ∧
    notFoundHandleDetails (JsonValue.obj (.cons "type" (.str "Entry")
        (.cons "id" (.str "abc") .nil))) =
      .ok "The requested Entry could not be found. ID: abc." ∧
    get_error ⟨404, [], "", some (.obj (.cons "details" (.obj (.cons "type" (.str "Entry")
        (.cons "id" (.str "abc") .nil))) .nil))⟩ =
      .ok ⟨404, ErrorKind.notFound,
        "HTTP status code: 404\nMessage: The requested resource or endpoint could not be found.\nDetails: The requested Entry could not be found. ID: abc.",
        none⟩ := by
  refine ⟨fun s => rfl, fun fs t ht => ⟨fun hid => ?_, fun v hv => ?_⟩, rfl, rfl⟩
  · simp only [notFoundHandleDetails, getItem, ht, pyGet, hid]
  · simp only [notFoundHandleDetails, getItem, ht, pyGet, hv]

/-- Witness for C6 at the Entry/abc details record. -/
theorem notFoundDetailsFormatWitness :
    notFoundHandleDetails (JsonValue.obj (.cons "type" (.str "Entry")
        (.cons "id" (.str "abc") .nil))) =
      .ok ("The requested " ++ pyStr (.str "Entry") ++ " could not be found." ++
        " ID: " ++ pyStr (.str "abc") ++ ".") :=
  ((notFoundDetailsFormat.2.1 (.cons "type" (.str "Entry")
      (.cons "id" (.str "abc") .nil)) (.str "Entry") rfl).2 (.str "abc") rfl)

lemma unprocessableHandleError_obj (fs : JsonObj) :
    unprocessableHandleError (JsonValue.obj fs) = .ok (ueFormatEntry fs) := by
  cases hn : fs.lookup "name" <;> cases hp : fs.lookup "path" <;>
    cases hv : fs.lookup "value" <;>
      simp [unprocessableHandleError, ueFormatEntry, pyContains, JsonObj.hasKey,
        getItem, hn, hp, hv] <;>
      rfl

lemma unprocessableHandleErrors_ok {l : List JsonValue}
    (hl : ∀ e ∈ l, e.isObj = true) :
    unprocessableHandleErrors l = .ok (l.map ueEntryText) := by
  induction l with
  | nil => rfl
  | cons x xs ih =>
    have hx := hl x (by simp)
    have hxs : ∀ e ∈ xs, e.isObj = true := fun e he => hl e (by simp [he])
    cases x <;> simp only [JsonValue.isObj] at hx <;> try exact Bool.noConfusion hx
    case obj fs =>
      simp [unprocessableHandleErrors, unprocessableHandleError_obj, ih hxs, ueEntryText]

/-- C8: for a 422 details record with an `errors` list of record entries,
the detail text is each entry formatted by the Name/Path/Value rule (default
sentence when name or path is missing), joined with newlines and prefixed
with one leading newline; the title/fields.title/x example is formatted as
the claim displays. -/
theorem unprocessableEntityDetailsFormat :
    (∀ fs l, JsonObj.lookup fs "errors" = some (JsonValue.arr l) →
      (∀ e ∈ l.toList, e.isObj = true) →
      unprocessableHandleDetails (JsonValue.obj fs) =
        .ok ("\n" ++ joinStrings "\n" (l.toList.map ueEntryText))) ∧
    unprocessableHandleDetails (JsonValue.obj (.cons "errors" (.arr (.cons (.obj
        (.cons "name" (.str "title") (.cons "path" (.str "fields.title")
          (.cons "value" (.str "x") .nil)))) .nil)) .nil)) =
      .ok "\n\t* Name: title - Path: 'fields.title' - Value: 'x'" := by
  refine ⟨fun fs l hl hobj => ?_, rfl⟩
  simp only [unprocessableHandleDetails, getItem, hl, pyIter,
    unprocessableHandleErrors_ok hobj]

/-- Witness for C8 at the title/fields.title/x entry. -/
theorem unprocessableEntityDetailsFormatWitness :
    unprocessableHandleDetails (JsonValue.obj (.cons "errors" (.arr (.cons (.obj
        (.cons "name" (.str "title") (.cons "path" (.str "fields.title")
          (.cons "value" (.str "x") .nil)))) .nil)) .nil)) =
      .ok ("\n" ++ joinStrings "\n" ((JsonArr.cons (.obj
        (.cons "name" (.str "title") (.cons "path" (.str "fields.title")
          (.cons "value" (.str "x") .nil)))) .nil).toList.map ueEntryText)) :=
  unprocessableEntityDetailsFormat.1 (.cons "errors" (.arr (.cons (.obj
    (.cons "name" (.str "title") (.cons "path" (.str "fields.title")
      (.cons "value" (.str "x") .nil)))) .nil)) .nil)
    (.cons (.obj (.cons "name" (.str "title") (.cons "path" (.str "fields.title")
      (.cons "value" (.str "x") .nil)))) .nil) rfl (by decide)

/-- A details value whose variant formatter raises propagates the raised
error out of `get_error` (the JSON-decode handler does not catch it). -/
lemma get_error_details_error {sc : Nat} {hs : List (String × String)} {tx : String}
    {jf : JsonObj} {d : JsonValue} {err : PyError}
    (hd : lookupGet jf "details" = some d)
    (hh : handleDetails (kindOf sc) d = .error err) :
    get_error ⟨sc, hs, tx, some (JsonValue.obj jf)⟩ = .error err := by
  have hcval : coreMessageLines (kindOf sc) ⟨sc, hs, tx, some (JsonValue.obj jf)⟩ =
      .error err := by
    simp only [coreMessageLines, pyGet, hd, detailLinesOf, hh]
  simp only [get_error, bestAvailableMessage, hcval]

lemma lookup_none_of_hasKey_false {fs : JsonObj} {key : String}
    (h : fs.hasKey key = false) : fs.lookup key = none := by
  cases hl : fs.lookup key
  · rfl
  · simp [JsonObj.hasKey, hl] at h

/-- Counterexample to C1 as stated: a 403 response whose parsed details is
a mapping without a `reasons` key makes the construction raise KeyError —
classification does not degrade to the default message there. -/
theorem classifyNoRaiseCounterexample :
    get_error ⟨403, [], "", some (.obj (.cons "details" (.obj .nil) .nil))⟩ =
      Except.error (PyError.keyError "reasons") := rfl

/-- C1 (amended): when the body cannot be parsed as JSON, classification
degrades to the status-level default message and returns an error object
(for 429 provided any present reset header value parses as an integer); but
when the parsed details value has an unexpected shape for the selected
variant — a 403 details mapping without `reasons`, a 404 details mapping
without `type`, a 422 details mapping without `errors` — the construction
raises KeyError instead of degrading. -/
theorem classifyDegradeOrRaise :
    (∀ resp : Response, resp.jsonBody = none →
      (resp.status_code = 429 →
        ∀ v, headerLookup resp.headers RATE_LIMIT_RESET_HEADER_KEY = some v →
          (pyInt? v).isSome = true) →
      ∃ e, get_error resp = Except.ok e) ∧
    (∀ (hs : List (String × String)) (tx : String) (jf fs : JsonObj),
      lookupGet jf "details" = some (JsonValue.obj fs) →
      (fs.hasKey "reasons" = false →
        get_error ⟨403, hs, tx, some (JsonValue.obj jf)⟩ =
          Except.error (PyError.keyError "reasons")) ∧
      (fs.hasKey "type" = false →
        get_error ⟨404, hs, tx, some (JsonValue.obj jf)⟩ =
          Except.error (PyError.keyError "type")) ∧
      (fs.hasKey "errors" = false →
        get_error ⟨422, hs, tx, some (JsonValue.obj jf)⟩ =
          Except.error (PyError.keyError "errors"))) := by
  constructor
  · intro resp hb hrl
    have hcval : coreMessageLines (kindOf resp.status_code) resp =
        .ok [statusLine resp,
          "Message: " ++ defaultErrorMessage (kindOf resp.status_code) resp] := by
      simp only [coreMessageLines, hb]
    by_cases hk : kindOf resp.status_code = ErrorKind.rateLimitExceeded
    · have hsc : resp.status_code = 429 := kindOf_429 hk
      rw [hk] at hcval
      rcases hh : headerLookup resp.headers RATE_LIMIT_RESET_HEADER_KEY with _ | v
      · refine ⟨⟨resp.status_code, kindOf resp.status_code,
          joinStrings "\n" ([statusLine resp,
            "Message: " ++ defaultErrorMessage (kindOf resp.status_code) resp] ++
            ([] : List String)), none⟩, ?_⟩
        simp only [get_error, bestAvailableMessage, hcval, hk, additionalErrorInfo,
          resetTimeOf, hh]
      · obtain ⟨n, hn⟩ := Option.isSome_iff_exists.mp (hrl hsc v hh)
        refine ⟨⟨resp.status_code, kindOf resp.status_code,
          joinStrings "\n" ([statusLine resp,
            "Message: " ++ defaultErrorMessage (kindOf resp.status_code) resp] ++
            ["Time until reset (seconds): " ++ toString n]), some n⟩, ?_⟩
        simp only [get_error, bestAvailableMessage, hcval, hk, additionalErrorInfo,
          resetTimeOf, hh, hn]
    · refine ⟨⟨resp.status_code, kindOf resp.status_code,
        joinStrings "\n" ([statusLine resp,
          "Message: " ++ defaultErrorMessage (kindOf resp.status_code) resp] ++
          ([] : List String)), none⟩, ?_⟩
      simp only [get_error, bestAvailableMessage, hcval, additionalErrorInfo_of_ne hk,
        resetTimeOf_of_ne hk]
  · intro hs tx jf fs hd
    refine ⟨fun hkey => ?_, fun hkey => ?_, fun hkey => ?_⟩
    · have hlook := lookup_none_of_hasKey_false hkey
      have hh : handleDetails (kindOf 403) (JsonValue.obj fs) =
          .error (PyError.keyError "reasons") := by
        have hk : kindOf 403 = ErrorKind.accessDenied := rfl
        rw [hk]
        simp only [handleDetails, accessDeniedHandleDetails, getItem, hlook]
      exact get_error_details_error hd hh
    · have hlook := lookup_none_of_hasKey_false hkey
      have hh : handleDetails (kindOf 404) (JsonValue.obj fs) =
          .error (PyError.keyError "type") := by
        have hk : kindOf 404 = ErrorKind.notFound := rfl
        rw [hk]
        simp only [handleDetails, notFoundHandleDetails, getItem, hlook]
      exact get_error_details_error hd hh
    · have hlook := lookup_none_of_hasKey_false hkey
      have hh : handleDetails (kindOf 422) (JsonValue.obj fs) =
          .error (PyError.keyError "errors") := by
        have hk : kindOf 422 = ErrorKind.unprocessableEntity := rfl
        rw [hk]
        simp only [handleDetails, unprocessableHandleDetails, getItem, hlook]
      exact get_error_details_error hd hh

/-- Witness for C1 (amended): a degrade on an unparseable 502 body, and a
KeyError raise on a 404 details mapping without a type key. -/
theorem classifyDegradeOrRaiseWitness :
    (∃ e, get_error ⟨502, [], "x", none⟩ = Except.ok e) ∧
    get_error ⟨404, [("h", "v")], "t", some (.obj (.cons "details" (.obj .nil) .nil))⟩ =
      Except.error (PyError.keyError "type") :=
  ⟨classifyDegradeOrRaise.1 ⟨502, [], "x", none⟩ rfl
      (fun hcontra => absurd hcontra (by decide)),
    (classifyDegradeOrRaise.2 [("h", "v")] "t" (.cons "details" (.obj .nil) .nil)
      .nil rfl).2.1 rfl⟩

lemma brEntries_ok {l : List JsonValue} (hok : ∀ e ∈ l, brEntryOk e = true) :
    ∃ handled, handleDetailEntries l = .ok handled ∧
      asStrList (handled.filterMap id) = .ok (l.filterMap brEntryResult) := by
  induction l with
  | nil => exact ⟨[], rfl, rfl⟩
  | cons x xs ih =>
    obtain ⟨handled, hh, hstr⟩ := ih (fun e he => hok e (by simp [he]))
    have hx := hok x (by simp)
    cases x with
    | null => simp [brEntryOk] at hx
    | bool b => simp [brEntryOk] at hx
    | num n => simp [brEntryOk] at hx
    | arr elems => simp [brEntryOk] at hx
    | str s =>
      refine ⟨some (.str s) :: handled, ?_, ?_⟩
      · simp [handleDetailEntries, handleDetailEntry, hh]
      · simp [asStrList, asStr, hstr, brEntryResult]
    | obj fs =>
      rcases hdj : fs.lookup "details" with _ | v
      · refine ⟨none :: handled, ?_, ?_⟩
        · simp [handleDetailEntries, handleDetailEntry, pyGet, lookupGet, hdj, hh]
        · simp [hstr, brEntryResult, hdj]
      · cases v with
        | null =>
          refine ⟨none :: handled, ?_, ?_⟩
          · simp [handleDetailEntries, handleDetailEntry, pyGet, lookupGet, hdj, hh]
          · simp [hstr, brEntryResult, hdj]
        | str s =>
          refine ⟨some (.str s) :: handled, ?_, ?_⟩
          · simp [handleDetailEntries, handleDetailEntry, pyGet, lookupGet, hdj, hh]
          · simp [asStrList, asStr, hstr, brEntryResult, hdj]
        | bool b => simp [brEntryOk, hdj] at hx
        | num n => simp [brEntryOk, hdj] at hx
        | arr elems => simp [brEntryOk, hdj] at hx
        | obj fs2 => simp [brEntryOk, hdj] at hx

/-- Counterexample to C7 as stated: for details `{"errors": ["oops"]}` the
source formatter passes the string entry through unchanged and yields
"oops", while the claimed rule (take each entry's `details` sub-field,
skipping entries that yield none) yields the empty join. -/
theorem badRequestDetailsCounterexample :
    badRequestHandleDetails (JsonValue.obj (.cons "errors"
        (.arr (.cons (.str "oops") .nil)) .nil)) = .ok "oops" ∧
    specC7BadRequestDetails (JsonValue.obj (.cons "errors"
        (.arr (.cons (.str "oops") .nil)) .nil)) = "" ∧
    ("oops" : String) ≠ "" :=
  ⟨rfl, rfl, by decide⟩

/-- C7 (amended): the 400 detail formatter returns a string details value
as-is; for a mapping with an `errors` list whose entries the joining step
accepts, each entry contributes itself when it is a string and otherwise
its `details` sub-field (entries yielding none are skipped), joined with
newline-tab; a mapping without `errors` is stringified whole (non-mapping,
non-string details can raise TypeError instead). -/
theorem badRequestDetailsAmended :
    (∀ s, badRequestHandleDetails (JsonValue.str s) = .ok s) ∧
    (∀ fs l, JsonObj.lookup fs "errors" = some (JsonValue.arr l) →
      (∀ e ∈ l.toList, brEntryOk e = true) →
      badRequestHandleDetails (JsonValue.obj fs) =
        .ok (joinStrings "\n\t" (l.toList.filterMap brEntryResult))) ∧
    (∀ fs, fs.hasKey "errors" = false →
      badRequestHandleDetails (JsonValue.obj fs) = .ok (pyStr (JsonValue.obj fs))) := by
  refine ⟨fun s => rfl, fun fs l hl hok => ?_, fun fs hkey => ?_⟩
  · obtain ⟨handled, hh, hstr⟩ := brEntries_ok hok
    simp [badRequestHandleDetails, pyContains, JsonObj.hasKey, hl, getItem, pyIter,
      hh, hstr]
  · simp [badRequestHandleDetails, pyContains, hkey]

/-- Witness for C7 (amended) on a mixed list: a bare string entry and a
record entry with a `details` sub-field. -/
theorem badRequestDetailsAmendedWitness :
    badRequestHandleDetails (JsonValue.obj (.cons "errors" (.arr (.cons (.str "a")
        (.cons (.obj (.cons "details" (.str "b") .nil)) .nil))) .nil)) =
      .ok (joinStrings "\n\t" ((JsonArr.cons (.str "a")
        (.cons (.obj (.cons "details" (.str "b") .nil)) .nil)).toList.filterMap
          brEntryResult)) :=
  badRequestDetailsAmended.2.1 (.cons "errors" (.arr (.cons (.str "a")
      (.cons (.obj (.cons "details" (.str "b") .nil)) .nil))) .nil)
    (.cons (.str "a") (.cons (.obj (.cons "details" (.str "b") .nil)) .nil))
    rfl (by decide)

end ContentfulErrors
